import Mathlib

/-!
Verification development for the POS cash-session reconciliation engine
(`src/lib/server/pos-sessions` of the be-BOP repository).

The TypeScript source is shallowly embedded:
* JS numbers carrying monetary amounts become `ℚ`;
* `Date` values become `ℕ` instants; the environment-dependent
  `Date.prototype.toLocaleString` is abstracted as decimal rendering of the instant;
* MongoDB `ObjectId` values become `ℕ`;
* the `posSessions` and `orders` collections become lists held in a `DB` record;
* every stateful operation takes the current `DB` and returns the resulting `DB`
  next to its `Except` outcome, so a thrown `error(...)` is an `Except.error`
  paired with the untouched state;
* JS `Map` insertion-order semantics become an ordered association list.
-/

abbrev Currency := String

abbrev PaymentMethod := String

inductive PosSessionStatus
  | active
  | closed
deriving DecidableEq

structure PosSessionUser where
  userId : ℕ
  userLogin : String
  userAlias : Option String
deriving DecidableEq

structure Money where
  amount : ℚ
  currency : Currency
deriving DecidableEq

structure PosSessionIncome where
  paymentMethod : PaymentMethod
  amount : ℚ
  currency : Currency
deriving DecidableEq

structure PosSessionOutcome where
  category : String
  amount : ℚ
  currency : Currency
deriving DecidableEq

structure PosSessionXTicket where
  generatedAt : ℕ
  generatedBy : PosSessionUser
deriving DecidableEq

structure PosSession where
  _id : ℕ
  status : PosSessionStatus
  openedAt : ℕ
  openedBy : PosSessionUser
  closedAt : Option ℕ
  closedBy : Option PosSessionUser
  cashOpening : Money
  cashClosing : Option Money
  cashClosingTheoretical : Option Money
  cashDelta : Option Money
  cashDeltaJustification : Option String
  dailyIncomes : List PosSessionIncome
  dailyOutcomes : List PosSessionOutcome
  xTickets : List PosSessionXTicket
  createdAt : ℕ
  updatedAt : ℕ
deriving DecidableEq

structure Payment where
  method : PaymentMethod
  status : String
  amount : ℚ
  currency : Currency
deriving DecidableEq

structure Order where
  createdAt : ℕ
  status : String
  payments : List Payment
deriving DecidableEq

structure DB where
  posSessions : List PosSession
  orders : List Order
deriving DecidableEq

structure RuntimeConfig where
  brandName : String
  posSessionsEnabled : Bool
  posCashDeltaJustificationMandatory : Bool
deriving DecidableEq

inductive PosError
  | posSessionsNotEnabled
  | alreadyActive
  | notFound
  | alreadyClosed
  | notActive
  | justificationRequired
deriving DecidableEq

/-- Among the active-filtered sessions, `findOne` with `sort openedAt : -1`
returns one with maximal `openedAt`. -/
def latestOpened : List PosSession → Option PosSession
  | [] => none
  | s :: rest =>
    match latestOpened rest with
    | none => some s
    | some t => if t.openedAt > s.openedAt then some t else some s

/-- `findOne with status closed, sort closedAt : -1`. -/
def latestClosed : List PosSession → Option PosSession
  | [] => none
  | s :: rest =>
    match latestClosed rest with
    | none => some s
    | some t => if t.closedAt.getD 0 > s.closedAt.getD 0 then some t else some s

/-- `getCurrentPosSession`: `findOne status active, sort openedAt desc`. -/
def getCurrentPosSession (sessions : List PosSession) : Option PosSession :=
  latestOpened (sessions.filter (fun s => s.status == PosSessionStatus.active))

/-- `getLastClosedSession`: `findOne status closed, sort closedAt desc`. -/
def getLastClosedSession (sessions : List PosSession) : Option PosSession :=
  latestClosed (sessions.filter (fun s => s.status == PosSessionStatus.closed))

/-- `updateOne` / `replaceOne` matched on `_id` only: rewrite the first record
whose `_id` equals `i`. -/
def updateFirstById (i : ℕ) (f : PosSession → PosSession) : List PosSession → List PosSession
  | [] => []
  | s :: rest => if s._id == i then f s :: rest else s :: updateFirstById i f rest

/-- One step of the `paidPayments.forEach` accumulation of `calculateDailyIncomes`:
a JS `Map` keyed by payment method, kept as an insertion-ordered association list. -/
def addPayment (incomes : List (PaymentMethod × Money)) (payment : Payment) :
    List (PaymentMethod × Money) :=
  match incomes.find? (fun e => e.1 == payment.method) with
  | some _ =>
    incomes.map (fun e =>
      if e.1 == payment.method then (e.1, ⟨e.2.amount + payment.amount, e.2.currency⟩) else e)
  | none => incomes ++ [(payment.method, ⟨payment.amount, payment.currency⟩)]

/-- The `paidPayments` binding of `calculateDailyIncomes`: payments of orders
created at-or-after `session.openedAt` with order status `paid`, themselves
filtered to payment status `paid`. -/
def paidPayments (orders : List Order) (session : PosSession) : List Payment :=
  (((orders.filter (fun o =>
      decide (session.openedAt ≤ o.createdAt) && (o.status == "paid"))).map
        (fun o => o.payments)).flatten).filter (fun p => p.status == "paid")

/-- `calculateDailyIncomes`: group the paid payments by method, summing amounts,
first payment of a method fixing the currency of the group. -/
def calculateDailyIncomes (orders : List Order) (session : PosSession) :
    List (PaymentMethod × Money) :=
  (paidPayments orders session).foldl addPayment []

/-- The `cashIncome` binding of `closePosSession`:
`incomesMap.get('point-of-sale')?.amount ?? 0`. -/
def cashIncomeOf (orders : List Order) (session : PosSession) : ℚ :=
  (((calculateDailyIncomes orders session).find?
      (fun e => e.1 == "point-of-sale")).map (fun e => e.2.amount)).getD 0

/-- The `totalOutcomes` binding of `closePosSession`:
`outcomes.reduce((sum, outcome) => sum + outcome.amount, 0)`. -/
def totalOutcomesOf (outcomes : List PosSessionOutcome) : ℚ :=
  outcomes.foldl (fun sum o => sum + o.amount) 0

/-- JS falsiness of `params.cashDeltaJustification`: `undefined` or the empty
string count as missing. -/
def justificationMissing : Option String → Bool
  | none => true
  | some s => s == ""

/-- Decimal rendering of an instant; stands for the environment-supplied
`Date.prototype.toLocaleString`. -/
def toLocaleString (d : ℕ) : String := toString d

/-- `session.closedAt?.toLocaleString()` interpolated into a template literal:
an absent date renders as the string `undefined`. -/
def optLocaleString : Option ℕ → String
  | none => "undefined"
  | some d => toLocaleString d

/-- `Number.prototype.toFixed(2)`: exactly two decimal places. -/
def toFixed2 (q : ℚ) : String :=
  let n : ℤ := round (q * 100)
  let sign := if n < 0 then "-" else ""
  let a := n.natAbs
  let fp := a % 100
  let fpStr := if fp < 10 then "0" ++ toString fp else toString fp
  sign ++ toString (a / 100) ++ "." ++ fpStr

/-- `userAlias || userLogin || userId` with JS falsiness of empty strings;
the `ObjectId` fallback is always truthy. -/
def displayUser (u : PosSessionUser) : String :=
  match u.userAlias with
  | some a => if a = "" then (if u.userLogin = "" then toString u.userId else u.userLogin) else a
  | none => if u.userLogin = "" then toString u.userId else u.userLogin

/-- `closedBy?.userAlias || closedBy?.userLogin || closedBy?.userId`:
an absent user interpolates as `undefined`. -/
def displayUserOpt : Option PosSessionUser → String
  | none => "undefined"
  | some u => displayUser u

/-- `generateZTicketText`, transcribed field by field from the template literal. -/
def generateZTicketText (cfg : RuntimeConfig) (session : PosSession) : String :=
  let currency := ((session.dailyIncomes.head?).map (fun i => i.currency)).getD
    session.cashOpening.currency
  let totalIncome := (session.dailyIncomes.map (fun i => i.amount)).sum
  let totalOutcome := (session.dailyOutcomes.map (fun o => o.amount)).sum
  let cashIncome := ((session.dailyIncomes.find?
    (fun i => i.paymentMethod == "point-of-sale")).map (fun i => i.amount)).getD 0
  let cashOutcomes := totalOutcome
  let incomeLines := String.intercalate "\n" (session.dailyIncomes.map (fun inc =>
    "  - " ++ inc.paymentMethod ++ " : " ++ toFixed2 inc.amount ++ " " ++ inc.currency))
  let outcomeLines := String.intercalate "\n" (session.dailyOutcomes.map (fun out =>
    "  - " ++ out.category ++ " : " ++ toFixed2 out.amount ++ " " ++ out.currency))
  cfg.brandName ++ " Z ticket\n" ++
  "Opening time : " ++ toLocaleString session.openedAt ++ " by " ++
    displayUser session.openedBy ++ "\n" ++
  "Closing time : " ++ optLocaleString session.closedAt ++ " by " ++
    displayUserOpt session.closedBy ++
  (match session.cashDelta with
    | some d => if |d.amount| > (0.01 : ℚ) then "\nDaily Z includes cash balance error" else ""
    | none => "") ++
  "\n\nDaily incomes :\n" ++ incomeLines ++
  "\nDaily incomes total :\n  - " ++ toFixed2 totalIncome ++ " " ++ currency ++
  "\n\nDaily outcomes :\n" ++ outcomeLines ++
  "\nDaily outcomes total :\n  - " ++ toFixed2 totalOutcome ++ " " ++ currency ++
  "\n\nDaily delta : " ++ (if totalIncome - totalOutcome ≥ 0 then "+" else "") ++
    toFixed2 (totalIncome - totalOutcome) ++ " " ++ currency ++
  "\n\nCash balance :\n  - Initial cash at opening : " ++
    toFixed2 session.cashOpening.amount ++ " " ++ session.cashOpening.currency ++
  "\n  - Daily cash incomes : " ++ toFixed2 cashIncome ++ " " ++ currency ++
  "\n  - Daily cash outcomes : " ++ toFixed2 cashOutcomes ++ " " ++ currency ++
  (match session.cashClosing with
    | some c => "\n  - Remaining cash at daily closing : " ++ toFixed2 c.amount ++ " " ++ c.currency
    | none => "") ++
  (match session.cashClosingTheoretical with
    | some c => "\n  - Theorical remaining cash at daily closing : " ++
        toFixed2 c.amount ++ " " ++ c.currency
    | none => "") ++
  (match session.cashDelta with
    | some d => "\nCash delta : " ++ (if d.amount ≥ 0 then "+" else "") ++
        toFixed2 d.amount ++ " " ++ d.currency
    | none => "") ++
  (match session.cashDeltaJustification with
    | some j => if j = "" then "" else "\n  - Motive : " ++ j
    | none => "")

/-- `generateXTicketText`; `now` stands for the `new Date()` the source takes
for the `X ticket current time` line. -/
def generateXTicketText (cfg : RuntimeConfig) (now : ℕ) (session : PosSession)
    (incomesMap : List (PaymentMethod × Money)) : String :=
  let currency := session.cashOpening.currency
  let totalIncome := (incomesMap.map (fun e => e.2.amount)).sum
  let incomeLines := String.intercalate "\n" (incomesMap.map (fun e =>
    "  - " ++ e.1 ++ " : " ++ toFixed2 e.2.amount ++ " " ++ e.2.currency))
  cfg.brandName ++ " X ticket\n" ++
  "Opening time : " ++ toLocaleString session.openedAt ++ " by " ++
    displayUser session.openedBy ++ "\n" ++
  "X ticket current time : " ++ toLocaleString now ++ " by " ++
    displayUser session.openedBy ++
  "\n\nDaily incomes so far :\n" ++ incomeLines ++
  "\nDaily incomes total so far :\n  - " ++ toFixed2 totalIncome ++ " " ++ currency

structure OpenPosParams where
  cashOpening : Money
  user : PosSessionUser
deriving DecidableEq

/-- `openPosSession`; `now` models the `new Date()` calls and `newId` the fresh
`ObjectId`.  The prior-day closing mismatch is only `console.warn`-ed, so it has
no effect on the outcome. -/
def openPosSession (cfg : RuntimeConfig) (db : DB) (now newId : ℕ) (params : OpenPosParams) :
    Except PosError ℕ × DB :=
  if !cfg.posSessionsEnabled then (.error .posSessionsNotEnabled, db)
  else
    match getCurrentPosSession db.posSessions with
    | some _ => (.error .alreadyActive, db)
    | none =>
      let session : PosSession :=
        { _id := newId
          status := .active
          openedAt := now
          openedBy := params.user
          closedAt := none
          closedBy := none
          cashOpening := params.cashOpening
          cashClosing := none
          cashClosingTheoretical := none
          cashDelta := none
          cashDeltaJustification := none
          dailyIncomes := []
          dailyOutcomes := []
          xTickets := []
          createdAt := now
          updatedAt := now }
      (.ok session._id, { db with posSessions := db.posSessions ++ [session] })

structure ClosePosParams where
  sessionId : ℕ
  cashClosing : Money
  outcomes : List PosSessionOutcome
  cashDeltaJustification : Option String
  user : PosSessionUser
deriving DecidableEq

/-- The `updatedSession` record built by `closePosSession` before the replace. -/
def closeUpdatedSession (orders : List Order) (session : PosSession) (now : ℕ)
    (params : ClosePosParams) : PosSession :=
  { session with
    status := .closed
    closedAt := some now
    closedBy := some params.user
    cashClosing := some params.cashClosing
    cashClosingTheoretical := some
      ⟨session.cashOpening.amount + cashIncomeOf orders session - totalOutcomesOf params.outcomes,
        session.cashOpening.currency⟩
    cashDelta := some
      ⟨params.cashClosing.amount -
          (session.cashOpening.amount + cashIncomeOf orders session -
            totalOutcomesOf params.outcomes),
        session.cashOpening.currency⟩
    cashDeltaJustification := params.cashDeltaJustification
    dailyIncomes := (calculateDailyIncomes orders session).map (fun e =>
      ⟨e.1, e.2.amount, e.2.currency⟩)
    dailyOutcomes := params.outcomes
    updatedAt := now }

/-- Everything `closePosSession` does before its single write: the `findOne`,
the two status guards, the aggregation and the delta computation.  A returned
`.ok` carries the fully-computed closed session and its Z-ticket text. -/
def closeReadPhase (cfg : RuntimeConfig) (db : DB) (now : ℕ) (params : ClosePosParams) :
    Except PosError (PosSession × String) :=
  match db.posSessions.find? (fun s => s._id == params.sessionId) with
  | none => .error .notFound
  | some session =>
    if session.status = .closed then .error .alreadyClosed
    else
      if |params.cashClosing.amount -
            (session.cashOpening.amount + cashIncomeOf db.orders session -
              totalOutcomesOf params.outcomes)| > (0.01 : ℚ)
          ∧ justificationMissing params.cashDeltaJustification = true then
        .error .justificationRequired
      else
        let updatedSession := closeUpdatedSession db.orders session now params
        .ok (updatedSession, generateZTicketText cfg updatedSession)

/-- The single write of `closePosSession`:
`replaceOne({ _id: params.sessionId }, updatedSession)`.  The filter carries the
id only — it is not conditioned on the record still being active. -/
def closeWritePhase (db : DB) (params : ClosePosParams) (updatedSession : PosSession) : DB :=
  { db with posSessions :=
      updateFirstById params.sessionId (fun _ => updatedSession) db.posSessions }

/-- `closePosSession` as a whole: read phase, then the unconditional replace. -/
def closePosSession (cfg : RuntimeConfig) (db : DB) (now : ℕ) (params : ClosePosParams) :
    Except PosError (PosSession × String) × DB :=
  match closeReadPhase cfg db now params with
  | .error e => (.error e, db)
  | .ok (updatedSession, zTicketText) =>
    (.ok (updatedSession, zTicketText), closeWritePhase db params updatedSession)

/-- The `$push` / `$set` update of `generateXTicket`: append one X-ticket log
entry and refresh `updatedAt`. -/
def xTicketPush (now : ℕ) (u : PosSessionUser) (t : PosSession) : PosSession :=
  { t with xTickets := t.xTickets ++ [⟨now, u⟩], updatedAt := now }

/-- `generateXTicket`: look up the session, require it active, aggregate, push
one X-ticket log entry and refresh `updatedAt`, return the rendered text (which
the source builds from the pre-update `session` record). -/
def generateXTicket (cfg : RuntimeConfig) (db : DB) (now : ℕ) (sessionId : ℕ)
    (user : PosSessionUser) : Except PosError String × DB :=
  match db.posSessions.find? (fun s => s._id == sessionId) with
  | none => (.error .notFound, db)
  | some session =>
    if session.status ≠ .active then (.error .notActive, db)
    else
      let incomesMap := calculateDailyIncomes db.orders session
      let db' := { db with posSessions := updateFirstById sessionId (xTicketPush now user) db.posSessions }
      (.ok (generateXTicketText cfg now session incomesMap), db')

/-! ### Concrete fixtures used by witnesses and counterexamples -/

def user0 : PosSessionUser := { userId := 7, userLogin := "ulogin", userAlias := none }

def cfg0 : RuntimeConfig :=
  { brandName := "B", posSessionsEnabled := true, posCashDeltaJustificationMandatory := true }

/-- Same configuration with the justification-mandatory flag turned off. -/
def cfgNoMand : RuntimeConfig :=
  { brandName := "B", posSessionsEnabled := true, posCashDeltaJustificationMandatory := false }

/-- Configuration with POS sessions disabled. -/
def cfgOff : RuntimeConfig :=
  { brandName := "B", posSessionsEnabled := false, posCashDeltaJustificationMandatory := true }

/-- An active session opened with a float of 100 EUR at instant 10. -/
def sess100 : PosSession :=
  { _id := 1
    status := .active
    openedAt := 10
    openedBy := user0
    closedAt := none
    closedBy := none
    cashOpening := ⟨100, "EUR"⟩
    cashClosing := none
    cashClosingTheoretical := none
    cashDelta := none
    cashDeltaJustification := none
    dailyIncomes := []
    dailyOutcomes := []
    xTickets := []
    createdAt := 10
    updatedAt := 10 }

/-- One paid order after opening carrying a single paid cash payment of 50 EUR. -/
def order50 : Order :=
  { createdAt := 12
    status := "paid"
    payments := [{ method := "point-of-sale", status := "paid", amount := 50, currency := "EUR" }] }

def db100 : DB := { posSessions := [sess100], orders := [order50] }

/-- Close request matching the spec example: declared 120, one outcome of 30;
theoretical is 100 + 50 - 30 = 120, delta 0. -/
def close120 : ClosePosParams :=
  { sessionId := 1
    cashClosing := ⟨120, "EUR"⟩
    outcomes := [{ category := "bank-deposit", amount := 30, currency := "EUR" }]
    cashDeltaJustification := none
    user := user0 }

/-- Close request declaring 100 against a theoretical 120 with no
justification: delta -20. -/
def closeNoJust : ClosePosParams :=
  { sessionId := 1
    cashClosing := ⟨100, "EUR"⟩
    outcomes := [{ category := "bank-deposit", amount := 30, currency := "EUR" }]
    cashDeltaJustification := none
    user := user0 }


/-! ### Branch lemmas for the lifecycle operations -/

theorem status_not_closed_iff {s : PosSession} : ¬ s.status = .closed ↔ s.status = .active := by
  cases h : s.status <;> simp

theorem closeReadPhase_found (cfg : RuntimeConfig) (db : DB) (now : ℕ) (p : ClosePosParams)
    (s : PosSession)
    (hf : db.posSessions.find? (fun t => t._id == p.sessionId) = some s)
    (hs : s.status = .active) :
    closeReadPhase cfg db now p =
      if |p.cashClosing.amount -
            (s.cashOpening.amount + cashIncomeOf db.orders s - totalOutcomesOf p.outcomes)|
            > (0.01 : ℚ) ∧ justificationMissing p.cashDeltaJustification = true then
        .error .justificationRequired
      else
        .ok (closeUpdatedSession db.orders s now p,
          generateZTicketText cfg (closeUpdatedSession db.orders s now p)) := by
  simp only [closeReadPhase, hf]
  rw [if_neg (status_not_closed_iff.mpr hs)]

theorem closePosSession_justification_required_of (cfg : RuntimeConfig) (db : DB) (now : ℕ)
    (p : ClosePosParams) (s : PosSession)
    (hf : db.posSessions.find? (fun t => t._id == p.sessionId) = some s)
    (hs : s.status = .active)
    (hd : |p.cashClosing.amount -
        (s.cashOpening.amount + cashIncomeOf db.orders s - totalOutcomesOf p.outcomes)|
        > (0.01 : ℚ))
    (hj : justificationMissing p.cashDeltaJustification = true) :
    closePosSession cfg db now p = (.error .justificationRequired, db) := by
  unfold closePosSession
  rw [closeReadPhase_found cfg db now p s hf hs, if_pos ⟨hd, hj⟩]

theorem closePosSession_ok_of (cfg : RuntimeConfig) (db : DB) (now : ℕ)
    (p : ClosePosParams) (s : PosSession)
    (hf : db.posSessions.find? (fun t => t._id == p.sessionId) = some s)
    (hs : s.status = .active)
    (h : ¬ (|p.cashClosing.amount -
        (s.cashOpening.amount + cashIncomeOf db.orders s - totalOutcomesOf p.outcomes)|
        > (0.01 : ℚ) ∧ justificationMissing p.cashDeltaJustification = true)) :
    closePosSession cfg db now p =
      (.ok (closeUpdatedSession db.orders s now p,
        generateZTicketText cfg (closeUpdatedSession db.orders s now p)),
       closeWritePhase db p (closeUpdatedSession db.orders s now p)) := by
  unfold closePosSession
  rw [closeReadPhase_found cfg db now p s hf hs, if_neg h]

theorem closeReadPhase_ok_inv (cfg : RuntimeConfig) (db : DB) (now : ℕ) (p : ClosePosParams)
    (s u : PosSession) (t : String)
    (hf : db.posSessions.find? (fun t => t._id == p.sessionId) = some s)
    (h : closeReadPhase cfg db now p = .ok (u, t)) :
    u = closeUpdatedSession db.orders s now p ∧
      t = generateZTicketText cfg u ∧ s.status = .active := by
  by_cases hs : s.status = .closed
  · simp only [closeReadPhase, hf, if_pos hs] at h
    exact absurd h (by simp)
  · have hs' := status_not_closed_iff.mp hs
    rw [closeReadPhase_found cfg db now p s hf hs'] at h
    by_cases hc : |p.cashClosing.amount -
        (s.cashOpening.amount + cashIncomeOf db.orders s - totalOutcomesOf p.outcomes)|
        > (0.01 : ℚ) ∧ justificationMissing p.cashDeltaJustification = true
    · rw [if_pos hc] at h
      exact absurd h (by simp)
    · rw [if_neg hc] at h
      obtain ⟨h1, h2⟩ : closeUpdatedSession db.orders s now p = u ∧
          generateZTicketText cfg (closeUpdatedSession db.orders s now p) = t := by
        simpa using h
      subst h1
      exact ⟨rfl, h2.symm, hs'⟩

theorem closePosSession_ok_read (cfg : RuntimeConfig) (db : DB) (now : ℕ) (p : ClosePosParams)
    (sess : PosSession) (text : String)
    (hok : (closePosSession cfg db now p).1 = .ok (sess, text)) :
    closeReadPhase cfg db now p = .ok (sess, text) := by
  unfold closePosSession at hok
  cases hr : closeReadPhase cfg db now p with
  | error e => rw [hr] at hok; exact absurd hok (by simp)
  | ok v =>
    obtain ⟨u, t⟩ := v
    rw [hr] at hok
    obtain ⟨h1, h2⟩ : u = sess ∧ t = text := by simpa using hok
    rw [h1, h2]

/-! ### C1: theoretical closing cash and cash delta -/

/-- C1.  Every close request that succeeds on an active session computes
`cashClosingTheoretical.amount = cashOpening.amount + cashIncome - totalOutcomes`
(with `cashIncome` the aggregated amount of the designated cash method
`point-of-sale`, 0 if absent, and `totalOutcomes` the sum of the supplied
outcome amounts), computes
`cashDelta.amount = declaredClosingAmount - cashClosingTheoretical.amount`,
and fixes both currencies to the session's opening currency. -/
theorem closePosSession_theoretical_and_delta (cfg : RuntimeConfig) (db : DB) (now : ℕ)
    (p : ClosePosParams) (s sess : PosSession) (text : String)
    (hf : db.posSessions.find? (fun t => t._id == p.sessionId) = some s)
    (hok : (closePosSession cfg db now p).1 = .ok (sess, text)) :
    sess.cashClosingTheoretical = some
      ⟨s.cashOpening.amount + cashIncomeOf db.orders s - totalOutcomesOf p.outcomes,
        s.cashOpening.currency⟩ ∧
    sess.cashDelta = some
      ⟨p.cashClosing.amount -
          (s.cashOpening.amount + cashIncomeOf db.orders s - totalOutcomesOf p.outcomes),
        s.cashOpening.currency⟩ := by
  have hread := closePosSession_ok_read cfg db now p sess text hok
  have hinv := closeReadPhase_ok_inv cfg db now p s sess text hf hread
  rw [hinv.1]
  exact ⟨rfl, rfl⟩

theorem cashIncome_db100 : cashIncomeOf db100.orders sess100 = 50 := rfl

theorem totalOutcomes_close120 : totalOutcomesOf close120.outcomes = 30 := by
  simp [totalOutcomesOf, close120, List.foldl]

theorem totalOutcomes_closeNoJust : totalOutcomesOf closeNoJust.outcomes = 30 := by
  simp [totalOutcomesOf, closeNoJust, List.foldl]

theorem close120_delta_small :
    ¬ (|close120.cashClosing.amount -
        (sess100.cashOpening.amount + cashIncomeOf db100.orders sess100 -
          totalOutcomesOf close120.outcomes)|
        > (0.01 : ℚ) ∧ justificationMissing close120.cashDeltaJustification = true) := by
  rw [cashIncome_db100, totalOutcomes_close120]
  intro h
  have := h.1
  norm_num [close120, sess100] at this

theorem closeNoJust_delta_big :
    |closeNoJust.cashClosing.amount -
      (sess100.cashOpening.amount + cashIncomeOf db100.orders sess100 -
        totalOutcomesOf closeNoJust.outcomes)| > (0.01 : ℚ) := by
  rw [cashIncome_db100, totalOutcomes_closeNoJust]
  norm_num [closeNoJust, sess100]

/-- Witness for C1, at the spec example: opening 100, cash income 50,
outcome 30, declared 120; theoretical 120, delta 0, currencies EUR. -/
theorem closePosSession_theoretical_and_delta_witness :
    (closePosSession cfg0 db100 20 close120).1 =
      .ok (closeUpdatedSession db100.orders sess100 20 close120,
        generateZTicketText cfg0 (closeUpdatedSession db100.orders sess100 20 close120)) ∧
    (closeUpdatedSession db100.orders sess100 20 close120).cashClosingTheoretical =
      some ⟨120, "EUR"⟩ ∧
    (closeUpdatedSession db100.orders sess100 20 close120).cashDelta = some ⟨0, "EUR"⟩ := by
  have heq := closePosSession_ok_of cfg0 db100 20 close120 sess100 rfl rfl close120_delta_small
  have hok : (closePosSession cfg0 db100 20 close120).1 =
      .ok (closeUpdatedSession db100.orders sess100 20 close120,
        generateZTicketText cfg0 (closeUpdatedSession db100.orders sess100 20 close120)) := by
    rw [heq]
  have h := closePosSession_theoretical_and_delta cfg0 db100 20 close120 sess100
    (closeUpdatedSession db100.orders sess100 20 close120)
    (generateZTicketText cfg0 (closeUpdatedSession db100.orders sess100 20 close120)) rfl hok
  refine ⟨hok, ?_, ?_⟩
  · rw [h.1, cashIncome_db100, totalOutcomes_close120]
    norm_num [sess100]
  · rw [h.2, cashIncome_db100, totalOutcomes_close120]
    norm_num [sess100, close120]

/-! ### C2: the justification gate -/

/-- C2.  On a close request resolving to an active session, the operation fails
with `JustificationRequired` iff `|cashDelta| > 0.01` and the supplied
justification is absent or empty (so a delta of exactly 0.01 never requires
one), and whenever it fails this way the stored sessions are unchanged. -/
theorem closePosSession_justification_gate (cfg : RuntimeConfig) (db : DB) (now : ℕ)
    (p : ClosePosParams) (s : PosSession)
    (hf : db.posSessions.find? (fun t => t._id == p.sessionId) = some s)
    (hs : s.status = .active) :
    ((closePosSession cfg db now p).1 = .error .justificationRequired ↔
      |p.cashClosing.amount -
          (s.cashOpening.amount + cashIncomeOf db.orders s - totalOutcomesOf p.outcomes)|
          > (0.01 : ℚ) ∧ justificationMissing p.cashDeltaJustification = true) ∧
    ((closePosSession cfg db now p).1 = .error .justificationRequired →
      (closePosSession cfg db now p).2 = db) := by
  by_cases h : |p.cashClosing.amount -
      (s.cashOpening.amount + cashIncomeOf db.orders s - totalOutcomesOf p.outcomes)|
      > (0.01 : ℚ) ∧ justificationMissing p.cashDeltaJustification = true
  · rw [closePosSession_justification_required_of cfg db now p s hf hs h.1 h.2]
    exact ⟨by simp [h], fun _ => rfl⟩
  · rw [closePosSession_ok_of cfg db now p s hf hs h]
    constructor
    · simp only [iff_false_intro h]
      simp
    · intro hco
      exact absurd hco (by simp)

/-- Witness for C2: declared 100 against theoretical 120 (delta -20) with no
justification fails with `JustificationRequired` and leaves the store as it was. -/
theorem closePosSession_justification_gate_witness :
    (closePosSession cfg0 db100 20 closeNoJust).1 = .error .justificationRequired ∧
    (closePosSession cfg0 db100 20 closeNoJust).2 = db100 := by
  have h := closePosSession_justification_gate cfg0 db100 20 closeNoJust sess100 rfl rfl
  have he := h.1.mpr ⟨closeNoJust_delta_big, rfl⟩
  exact ⟨he, h.2 he⟩

/-! ### C4: the justification-mandatory flag is not consulted by close -/

/-- Counterexample to C4 as stated: with
`posCashDeltaJustificationMandatory = false`, a close with `|delta| = 20 > 0.01`
and no justification still fails with `JustificationRequired` instead of
succeeding — the flag does not suppress the failure. -/
theorem closePosSession_flag_false_cex :
    cfgNoMand.posCashDeltaJustificationMandatory = false ∧
    closePosSession cfgNoMand db100 20 closeNoJust = (.error .justificationRequired, db100) :=
  ⟨rfl, closePosSession_justification_required_of cfgNoMand db100 20 closeNoJust sess100
    rfl rfl closeNoJust_delta_big rfl⟩

/-- C4 (amended).  `closePosSession` does not consult
`posCashDeltaJustificationMandatory` (the closing page merely copies the flag
into its load data): for either value of the flag, a close on an active session
with `|delta| > 0.01` and a missing justification fails with
`JustificationRequired`, leaving the store unchanged. -/
theorem closePosSession_ignores_mandatory_flag (cfg : RuntimeConfig) (b : Bool) (db : DB)
    (now : ℕ) (p : ClosePosParams) (s : PosSession)
    (hf : db.posSessions.find? (fun t => t._id == p.sessionId) = some s)
    (hs : s.status = .active)
    (hd : |p.cashClosing.amount -
        (s.cashOpening.amount + cashIncomeOf db.orders s - totalOutcomesOf p.outcomes)|
        > (0.01 : ℚ))
    (hj : justificationMissing p.cashDeltaJustification = true) :
    closePosSession { cfg with posCashDeltaJustificationMandatory := b } db now p =
      (.error .justificationRequired, db) :=
  closePosSession_justification_required_of _ db now p s hf hs hd hj

/-- Witness for the amended C4, with the flag set to `false`. -/
theorem closePosSession_ignores_mandatory_flag_witness :
    closePosSession { cfg0 with posCashDeltaJustificationMandatory := false }
        db100 20 closeNoJust = (.error .justificationRequired, db100) :=
  closePosSession_ignores_mandatory_flag cfg0 false db100 20 closeNoJust sess100
    rfl rfl closeNoJust_delta_big rfl

/-! ### C5: closing an already-closed session -/

/-- C5.  A close attempt on a session whose status is already closed fails with
`AlreadyClosed` and returns the store exactly as it was: no field of any
session changes. -/
theorem closePosSession_already_closed (cfg : RuntimeConfig) (db : DB) (now : ℕ)
    (p : ClosePosParams) (s : PosSession)
    (hf : db.posSessions.find? (fun t => t._id == p.sessionId) = some s)
    (hs : s.status = .closed) :
    closePosSession cfg db now p = (.error .alreadyClosed, db) := by
  unfold closePosSession
  simp only [closeReadPhase, hf, if_pos hs]

/-- A session already closed at instant 15. -/
def sessClosed : PosSession :=
  { sess100 with
    _id := 2
    status := .closed
    closedAt := some 15
    closedBy := some user0
    cashClosing := some ⟨150, "EUR"⟩
    cashClosingTheoretical := some ⟨150, "EUR"⟩
    cashDelta := some ⟨0, "EUR"⟩ }

def dbClosed : DB := { posSessions := [sessClosed], orders := [] }

/-- A second close aimed at the closed session `sessClosed`. -/
def closeAgain : ClosePosParams :=
  { sessionId := 2
    cashClosing := ⟨150, "EUR"⟩
    outcomes := []
    cashDeltaJustification := none
    user := user0 }

/-- Witness for C5: a second close of `sessClosed` fails with `AlreadyClosed`
and every stored field is untouched. -/
theorem closePosSession_already_closed_witness :
    closePosSession cfg0 dbClosed 30 closeAgain = (.error .alreadyClosed, dbClosed) :=
  closePosSession_already_closed cfg0 dbClosed 30 closeAgain sessClosed rfl rfl

/-! ### C10: the enablement flag is checked first -/

/-- C10.  When `posSessionsEnabled` is false, opening fails with the
POS-sessions-not-enabled error for every store state — in particular before the
active-session check could fire — and nothing is persisted. -/
theorem openPosSession_disabled (cfg : RuntimeConfig) (db : DB) (now newId : ℕ)
    (p : OpenPosParams) (h : cfg.posSessionsEnabled = false) :
    openPosSession cfg db now newId p = (.error .posSessionsNotEnabled, db) := by
  simp [openPosSession, h]

def open0 : OpenPosParams := { cashOpening := ⟨100, "EUR"⟩, user := user0 }

/-- Witness for C10: with the flag off, opening fails with the not-enabled
error even though `db100` already holds an active session (which would
otherwise trigger `AlreadyActive`), and the store is unchanged. -/
theorem openPosSession_disabled_witness :
    sess100.status = .active ∧
    openPosSession cfgOff db100 0 9 open0 = (.error .posSessionsNotEnabled, db100) :=
  ⟨rfl, openPosSession_disabled cfgOff db100 0 9 open0 rfl⟩

/-! ### Lookup after a first-match update -/

theorem find?_updateFirstById (i : ℕ) (f : PosSession → PosSession) (l : List PosSession)
    (s : PosSession) (hl : l.find? (fun t => t._id == i) = some s)
    (hid : (f s)._id = s._id) :
    (updateFirstById i f l).find? (fun t => t._id == i) = some (f s) := by
  induction l with
  | nil => simp [List.find?] at hl
  | cons a rest ih =>
    rw [List.find?_cons] at hl
    by_cases hm : (a._id == i) = true
    · have has : a = s := by simpa [hm] using hl
      rw [updateFirstById, if_pos hm, List.find?_cons, has]
      have hm2 : ((f s)._id == i) = true := by
        rw [hid, ← has]
        exact hm
      simp [hm2]
    · have hm2 : (a._id == i) = false := by simpa using hm
      have hl2 : List.find? (fun t => t._id == i) rest = some s := by
        simpa [hm2] using hl
      rw [updateFirstById, if_neg hm, List.find?_cons]
      simpa [hm2] using ih hl2

/-! ### C6: reproducibility of ticket rendering -/

/-- Counterexample to C6 as stated: the X-ticket text embeds the wall-clock
generation instant (the `new Date()` of `generateXTicketText`), so rendering
the same active-session snapshot with the same income snapshot at two different
instants yields different bytes — X-ticket rendering is not reproducible from
the snapshot alone. -/
theorem generateXTicketText_time_dependent_cex :
    generateXTicketText cfg0 1 sess100 [] ≠ generateXTicketText cfg0 2 sess100 [] := by
  decide

/-- C6 (amended).  Rendering performs no writes (both renderers are functions
of their snapshot arguments only).  The Z-ticket is reproducible from the
session snapshot alone: whenever a close succeeds, re-rendering the session it
persisted yields exactly the ticket text it returned, and that session is what
the store then holds under the request's id.  The X-ticket, by contrast, also
depends on the generation instant embedded in its output. -/
theorem generateZTicketText_reproducible (cfg : RuntimeConfig) (db : DB) (now : ℕ)
    (p : ClosePosParams) (sess : PosSession) (text : String)
    (hok : (closePosSession cfg db now p).1 = .ok (sess, text)) :
    generateZTicketText cfg sess = text ∧
    (closePosSession cfg db now p).2.posSessions.find? (fun t => t._id == p.sessionId) =
      some sess := by
  have hread := closePosSession_ok_read cfg db now p sess text hok
  cases hf : db.posSessions.find? (fun t => t._id == p.sessionId) with
  | none =>
    rw [closeReadPhase, hf] at hread
    exact absurd hread (by simp)
  | some s =>
    have hinv := closeReadPhase_ok_inv cfg db now p s sess text hf hread
    have hdb2 : (closePosSession cfg db now p).2 = closeWritePhase db p sess := by
      unfold closePosSession
      rw [hread]
    refine ⟨hinv.2.1.symm, ?_⟩
    rw [hdb2]
    unfold closeWritePhase
    have hid : sess._id = s._id := by rw [hinv.1]; rfl
    exact find?_updateFirstById p.sessionId (fun _ => sess) db.posSessions s hf hid

/-- Witness for the amended C6: after the successful example close, the stored
session re-renders to the very ticket text the close returned. -/
theorem generateZTicketText_reproducible_witness :
    generateZTicketText cfg0 (closeUpdatedSession db100.orders sess100 20 close120) =
      generateZTicketText cfg0 (closeUpdatedSession db100.orders sess100 20 close120) ∧
    (closePosSession cfg0 db100 20 close120).2.posSessions.find?
        (fun t => t._id == close120.sessionId) =
      some (closeUpdatedSession db100.orders sess100 20 close120) := by
  have heq := closePosSession_ok_of cfg0 db100 20 close120 sess100 rfl rfl close120_delta_small
  have hok : (closePosSession cfg0 db100 20 close120).1 =
      .ok (closeUpdatedSession db100.orders sess100 20 close120,
        generateZTicketText cfg0 (closeUpdatedSession db100.orders sess100 20 close120)) := by
    rw [heq]
  exact (generateZTicketText_reproducible cfg0 db100 20 close120 _ _ hok)

/-! ### C7: X-ticket generation appends exactly one log entry -/

theorem generateXTicket_of_found (cfg : RuntimeConfig) (db : DB) (now : ℕ) (sid : ℕ)
    (u : PosSessionUser) (s : PosSession)
    (hf : db.posSessions.find? (fun t => t._id == sid) = some s)
    (hs : s.status = .active) :
    generateXTicket cfg db now sid u =
      (.ok (generateXTicketText cfg now s (calculateDailyIncomes db.orders s)),
       { db with posSessions := updateFirstById sid (xTicketPush now u) db.posSessions }) := by
  simp only [generateXTicket, hf]
  rw [if_neg (not_not_intro hs)]

/-- C7.  On an active session, generating an interim X-ticket succeeds,
leaves the orders untouched, and replaces the stored session by one that
differs only in `xTickets` (exactly one appended entry holding the generation
instant and operator) and `updatedAt`; a second generation appends a second
entry, so both are preserved in order, status and all remaining fields —
including every closing field — staying exactly those of `s`. -/
theorem generateXTicket_appends (cfg : RuntimeConfig) (db : DB) (sid t1 t2 : ℕ)
    (u1 u2 : PosSessionUser) (s : PosSession)
    (hf : db.posSessions.find? (fun t => t._id == sid) = some s)
    (hs : s.status = .active) :
    (generateXTicket cfg db t1 sid u1).1 =
      .ok (generateXTicketText cfg t1 s (calculateDailyIncomes db.orders s)) ∧
    (generateXTicket cfg db t1 sid u1).2.orders = db.orders ∧
    (generateXTicket cfg db t1 sid u1).2.posSessions.find? (fun t => t._id == sid) =
      some { s with xTickets := s.xTickets ++ [⟨t1, u1⟩], updatedAt := t1 } ∧
    (generateXTicket cfg (generateXTicket cfg db t1 sid u1).2 t2 sid u2).2.posSessions.find?
        (fun t => t._id == sid) =
      some { s with xTickets := s.xTickets ++ [⟨t1, u1⟩, ⟨t2, u2⟩], updatedAt := t2 } := by
  have h1 := generateXTicket_of_found cfg db t1 sid u1 s hf hs
  have hfind1 : (generateXTicket cfg db t1 sid u1).2.posSessions.find?
      (fun t => t._id == sid) = some (xTicketPush t1 u1 s) := by
    rw [h1]
    exact find?_updateFirstById sid (xTicketPush t1 u1) db.posSessions s hf rfl
  have hs1 : (xTicketPush t1 u1 s).status = .active := hs
  have h2 := generateXTicket_of_found cfg (generateXTicket cfg db t1 sid u1).2 t2 sid u2
    (xTicketPush t1 u1 s) hfind1 hs1
  have hfind2 : (generateXTicket cfg (generateXTicket cfg db t1 sid u1).2 t2 sid u2).2.posSessions.find?
      (fun t => t._id == sid) = some (xTicketPush t2 u2 (xTicketPush t1 u1 s)) := by
    rw [h2]
    exact find?_updateFirstById sid (xTicketPush t2 u2)
      (generateXTicket cfg db t1 sid u1).2.posSessions (xTicketPush t1 u1 s) hfind1 rfl
  have hrec : xTicketPush t2 u2 (xTicketPush t1 u1 s) =
      { s with xTickets := s.xTickets ++ [⟨t1, u1⟩, ⟨t2, u2⟩], updatedAt := t2 } := by
    unfold xTicketPush
    simp
  refine ⟨by rw [h1], by rw [h1], hfind1, ?_⟩
  rw [← hrec]
  exact hfind2

/-- Witness for C7 on the concrete active session `sess100` (empty log):
two generations at instants 1 and 2 leave a log holding exactly those two
entries, everything else as in `sess100`. -/
theorem generateXTicket_appends_witness :
    (generateXTicket cfg0 db100 1 1 user0).1 =
      .ok (generateXTicketText cfg0 1 sess100 (calculateDailyIncomes db100.orders sess100)) ∧
    (generateXTicket cfg0 db100 1 1 user0).2.orders = db100.orders ∧
    (generateXTicket cfg0 db100 1 1 user0).2.posSessions.find? (fun t => t._id == 1) =
      some { sess100 with xTickets := [⟨1, user0⟩], updatedAt := 1 } ∧
    (generateXTicket cfg0 (generateXTicket cfg0 db100 1 1 user0).2 2 1 user0).2.posSessions.find?
        (fun t => t._id == 1) =
      some { sess100 with xTickets := [⟨1, user0⟩, ⟨2, user0⟩], updatedAt := 2 } := by
  have h := generateXTicket_appends cfg0 db100 1 1 2 user0 user0 sess100 rfl rfl
  exact ⟨h.1, h.2.1, h.2.2.1, h.2.2.2⟩

/-! ### C9: the close race -/

def user1 : PosSessionUser := { userId := 8, userLogin := "vlogin", userAlias := none }

/-- Store with one active session and no orders, shared by two racing closers. -/
def raceDb : DB := { posSessions := [sess100], orders := [] }

def raceP1 : ClosePosParams :=
  { sessionId := 1
    cashClosing := ⟨100, "EUR"⟩
    outcomes := []
    cashDeltaJustification := none
    user := user0 }

def raceP2 : ClosePosParams :=
  { sessionId := 1
    cashClosing := ⟨100, "EUR"⟩
    outcomes := []
    cashDeltaJustification := none
    user := user1 }

def raceU1 : PosSession := closeUpdatedSession raceDb.orders sess100 5 raceP1

def raceU2 : PosSession := closeUpdatedSession raceDb.orders sess100 6 raceP2

theorem race_delta_zero_1 :
    ¬ (|raceP1.cashClosing.amount -
        (sess100.cashOpening.amount + cashIncomeOf raceDb.orders sess100 -
          totalOutcomesOf raceP1.outcomes)|
        > (0.01 : ℚ) ∧ justificationMissing raceP1.cashDeltaJustification = true) := by
  rw [show cashIncomeOf raceDb.orders sess100 = 0 from rfl,
    show totalOutcomesOf raceP1.outcomes = 0 from rfl]
  intro h
  have := h.1
  norm_num [raceP1, sess100] at this

theorem race_delta_zero_2 :
    ¬ (|raceP2.cashClosing.amount -
        (sess100.cashOpening.amount + cashIncomeOf raceDb.orders sess100 -
          totalOutcomesOf raceP2.outcomes)|
        > (0.01 : ℚ) ∧ justificationMissing raceP2.cashDeltaJustification = true) := by
  rw [show cashIncomeOf raceDb.orders sess100 = 0 from rfl,
    show totalOutcomesOf raceP2.outcomes = 0 from rfl]
  intro h
  have := h.1
  norm_num [raceP2, sess100] at this

/-- C9 evaluated at the failing interleaving read1; read2; write1; write2 of
two close calls on the same session id.  Both validation phases succeed against
the shared initial store, because the `replaceOne` of `closePosSession` filters
on `_id` only and is not conditioned on the record still being active: the
second write lands on the already-closed record (the final store holds the
second closer's session), so neither call fails with `AlreadyClosed` — whereas
a fully sequential second close, whose read runs after the first write, does
fail with `AlreadyClosed`. -/
theorem closePosSession_race_cex :
    closeReadPhase cfg0 raceDb 5 raceP1 = .ok (raceU1, generateZTicketText cfg0 raceU1) ∧
    closeReadPhase cfg0 raceDb 6 raceP2 = .ok (raceU2, generateZTicketText cfg0 raceU2) ∧
    raceU1.status = .closed ∧
    (closeWritePhase (closeWritePhase raceDb raceP1 raceU1) raceP2 raceU2).posSessions.find?
        (fun t => t._id == 1) = some raceU2 ∧
    closeReadPhase cfg0 (closeWritePhase raceDb raceP1 raceU1) 6 raceP2 =
      .error .alreadyClosed := by
  have r1 : closeReadPhase cfg0 raceDb 5 raceP1 =
      .ok (raceU1, generateZTicketText cfg0 raceU1) := by
    rw [closeReadPhase_found cfg0 raceDb 5 raceP1 sess100 rfl rfl, if_neg race_delta_zero_1]
    rfl
  have r2 : closeReadPhase cfg0 raceDb 6 raceP2 =
      .ok (raceU2, generateZTicketText cfg0 raceU2) := by
    rw [closeReadPhase_found cfg0 raceDb 6 raceP2 sess100 rfl rfl, if_neg race_delta_zero_2]
    rfl
  have hfind1 : (closeWritePhase raceDb raceP1 raceU1).posSessions.find?
      (fun t => t._id == raceP2.sessionId) = some raceU1 := rfl
  have hseq : closeReadPhase cfg0 (closeWritePhase raceDb raceP1 raceU1) 6 raceP2 =
      .error .alreadyClosed := by
    simp only [closeReadPhase, hfind1]
    rw [if_pos (show raceU1.status = .closed from rfl)]
  exact ⟨r1, r2, rfl, rfl, hseq⟩

/-! ### C8: at most one active session -/

def activeSessionCount (l : List PosSession) : ℕ :=
  (l.filter (fun s => s.status == PosSessionStatus.active)).length

inductive PosOp
  | openOp (now newId : ℕ) (p : OpenPosParams)
  | closeOp (now : ℕ) (p : ClosePosParams)
deriving DecidableEq

/-- Interleaving alphabet of the lifecycle manager: each call runs to
completion against the current store, a failed call leaving it unchanged. -/
def applyPosOp (cfg : RuntimeConfig) (db : DB) : PosOp → DB
  | .openOp now newId p => (openPosSession cfg db now newId p).2
  | .closeOp now p => (closePosSession cfg db now p).2

theorem latestOpened_eq_none_iff {l : List PosSession} : latestOpened l = none ↔ l = [] := by
  cases l with
  | nil => simp [latestOpened]
  | cons s rest =>
    simp only [latestOpened]
    cases hr : latestOpened rest with
    | none => simp
    | some t =>
      constructor
      · intro h
        split at h
        · simp at h
        · split at h <;> simp at h
      · intro h
        simp at h

theorem activeSessionCount_cons (s : PosSession) (l : List PosSession) :
    activeSessionCount (s :: l) =
      activeSessionCount l + (if s.status = .active then 1 else 0) := by
  by_cases h : s.status = .active
  · simp [activeSessionCount, List.filter_cons, h]
  · simp [activeSessionCount, List.filter_cons, h]

theorem activeSessionCount_update_closed (i : ℕ) (t : PosSession) (ht : t.status = .closed)
    (l : List PosSession) :
    activeSessionCount (updateFirstById i (fun _ => t) l) ≤ activeSessionCount l := by
  induction l with
  | nil => simp [updateFirstById]
  | cons a rest ih =>
    rw [updateFirstById]
    by_cases h : (a._id == i) = true
    · rw [if_pos h, activeSessionCount_cons, activeSessionCount_cons]
      have hta : ¬ t.status = .active := by rw [ht]; simp
      rw [if_neg hta]
      split <;> omega
    · rw [if_neg h, activeSessionCount_cons, activeSessionCount_cons]
      exact Nat.add_le_add_right ih _

theorem closeReadPhase_ok_closed (cfg : RuntimeConfig) (db : DB) (now : ℕ) (p : ClosePosParams)
    (u : PosSession) (t : String) (h : closeReadPhase cfg db now p = .ok (u, t)) :
    u.status = .closed := by
  cases hf : db.posSessions.find? (fun s => s._id == p.sessionId) with
  | none =>
    simp only [closeReadPhase, hf] at h
    exact absurd h (by simp)
  | some s =>
    obtain ⟨he, -, -⟩ := closeReadPhase_ok_inv cfg db now p s u t hf h
    rw [he]
    rfl

theorem activeSessionCount_open (cfg : RuntimeConfig) (db : DB) (now newId : ℕ)
    (p : OpenPosParams) (h : activeSessionCount db.posSessions ≤ 1) :
    activeSessionCount (openPosSession cfg db now newId p).2.posSessions ≤ 1 := by
  unfold openPosSession
  by_cases he : cfg.posSessionsEnabled = true
  · simp only [he]
    cases hc : getCurrentPosSession db.posSessions with
    | some s => simpa using h
    | none =>
      have hfil : db.posSessions.filter (fun s => s.status == PosSessionStatus.active) = [] :=
        latestOpened_eq_none_iff.mp (by rwa [getCurrentPosSession] at hc)
      simp [activeSessionCount, List.filter_append, hfil]
  · have he2 : cfg.posSessionsEnabled = false := by simpa using he
    simp only [he2]
    simpa using h

theorem activeSessionCount_close (cfg : RuntimeConfig) (db : DB) (now : ℕ)
    (p : ClosePosParams) (h : activeSessionCount db.posSessions ≤ 1) :
    activeSessionCount (closePosSession cfg db now p).2.posSessions ≤ 1 := by
  unfold closePosSession
  cases hr : closeReadPhase cfg db now p with
  | error e => simpa using h
  | ok v =>
    obtain ⟨u, t⟩ := v
    have hu : u.status = .closed := closeReadPhase_ok_closed cfg db now p u t hr
    show activeSessionCount (closeWritePhase db p u).posSessions ≤ 1
    unfold closeWritePhase
    exact le_trans (activeSessionCount_update_closed p.sessionId u hu db.posSessions) h

/-- C8.  Starting from any store holding at most one active session, every
sequence of open and close calls preserves the invariant (so it holds at every
observed point); moreover, whenever an active session exists (and the feature
is enabled), `openPosSession` fails with `AlreadyActive`, and `openPosSession`
never rewrites existing sessions — it at most appends a fresh one — so the
close operation is the only transition out of `active`. -/
theorem posSession_singleton_invariant (cfg : RuntimeConfig) (db : DB) (ops : List PosOp)
    (h : activeSessionCount db.posSessions ≤ 1) :
    activeSessionCount (ops.foldl (applyPosOp cfg) db).posSessions ≤ 1 ∧
    (∀ now newId p, cfg.posSessionsEnabled = true →
      (∃ s ∈ db.posSessions, s.status = PosSessionStatus.active) →
      (openPosSession cfg db now newId p).1 = .error .alreadyActive) ∧
    (∀ now newId p, (openPosSession cfg db now newId p).2.posSessions = db.posSessions ∨
      ∃ ns, (openPosSession cfg db now newId p).2.posSessions = db.posSessions ++ [ns]) := by
  refine ⟨?_, ?_, ?_⟩
  · induction ops generalizing db with
    | nil => exact h
    | cons op rest ih =>
      rw [List.foldl_cons]
      refine ih (applyPosOp cfg db op) ?_
      cases op with
      | openOp now newId p => exact activeSessionCount_open cfg db now newId p h
      | closeOp now p => exact activeSessionCount_close cfg db now p h
  · rintro now newId p hen ⟨s, hmem, hact⟩
    have hne : getCurrentPosSession db.posSessions ≠ none := by
      intro hc
      have hfil := latestOpened_eq_none_iff.mp (by rwa [getCurrentPosSession] at hc)
      have : s ∈ db.posSessions.filter (fun u => u.status == PosSessionStatus.active) :=
        List.mem_filter.mpr ⟨hmem, by simp [hact]⟩
      rw [hfil] at this
      simp at this
    unfold openPosSession
    simp only [hen]
    cases hc : getCurrentPosSession db.posSessions with
    | none => exact absurd hc hne
    | some t => simp
  · intro now newId p
    unfold openPosSession
    by_cases he : cfg.posSessionsEnabled = true
    · simp only [he]
      cases hc : getCurrentPosSession db.posSessions with
      | none => exact Or.inr ⟨_, rfl⟩
      | some t => exact Or.inl rfl
    · have he2 : cfg.posSessionsEnabled = false := by simpa using he
      simp only [he2]
      exact Or.inl rfl

/-- Witness for C8: from the one-active-session store `raceDb`, the invariant
survives an open attempt followed by a close, and an open against the active
store fails with `AlreadyActive`. -/
theorem posSession_singleton_invariant_witness :
    activeSessionCount ([PosOp.openOp 10 3 open0, PosOp.closeOp 20 raceP1].foldl
      (applyPosOp cfg0) raceDb).posSessions ≤ 1 ∧
    (openPosSession cfg0 raceDb 11 4 open0).1 = .error .alreadyActive := by
  have h := posSession_singleton_invariant cfg0 raceDb
    [PosOp.openOp 10 3 open0, PosOp.closeOp 20 raceP1] (by decide)
  exact ⟨h.1, h.2.1 11 4 open0 rfl ⟨sess100, by simp [raceDb], rfl⟩⟩

/-! ### C3: characterization of the income aggregation -/

/-- Arithmetic sum of the amounts of the payments with method `m`. -/
def methodAmount (ps : List Payment) (m : PaymentMethod) : ℚ :=
  ((ps.filter (fun p => p.method == m)).map (fun p => p.amount)).sum

/-- Currency of the first payment with method `m`, if any. -/
def methodFirstCurrency (ps : List Payment) (m : PaymentMethod) : Option Currency :=
  ((ps.filter (fun p => p.method == m)).head?).map (fun p => p.currency)

/-- Payment methods in order of first appearance. -/
def firstSeenMethods : List Payment → List PaymentMethod
  | [] => []
  | p :: rest => p.method :: (firstSeenMethods rest).filter (fun x => !(x == p.method))

/-- The aggregation as the spec words it: one entry per first-seen method
carrying the arithmetic per-method sum and the first payment's currency. -/
def aggregationSpec (ps : List Payment) : List (PaymentMethod × Money) :=
  (firstSeenMethods ps).map (fun m =>
    (m, (⟨methodAmount ps m, (methodFirstCurrency ps m).getD ""⟩ : Money)))

theorem mem_firstSeenMethods {m : PaymentMethod} {ps : List Payment} :
    m ∈ firstSeenMethods ps ↔ m ∈ ps.map Payment.method := by
  induction ps with
  | nil => simp [firstSeenMethods]
  | cons p rest ih =>
    simp only [firstSeenMethods, List.map_cons, List.mem_cons, List.mem_filter, ih]
    by_cases h : m = p.method
    · simp [h]
    · simp [h]

theorem methodAmount_append (ps : List Payment) (p : Payment) (m : PaymentMethod) :
    methodAmount (ps ++ [p]) m =
      methodAmount ps m + (if p.method == m then p.amount else 0) := by
  unfold methodAmount
  rw [List.filter_append]
  by_cases h : (p.method == m) = true
  · simp [h]
  · have h2 : (p.method == m) = false := by simpa using h
    simp [h2]

theorem filter_method_eq_nil {ps : List Payment} {m : PaymentMethod}
    (h : ¬ m ∈ ps.map Payment.method) :
    ps.filter (fun q => q.method == m) = [] := by
  rw [List.filter_eq_nil_iff]
  intro q hq
  simp only [beq_iff_eq]
  intro hqm
  exact h (List.mem_map.mpr ⟨q, hq, hqm⟩)

theorem methodAmount_of_not_mem {ps : List Payment} {m : PaymentMethod}
    (h : ¬ m ∈ ps.map Payment.method) : methodAmount ps m = 0 := by
  unfold methodAmount
  rw [filter_method_eq_nil h]
  simp

theorem methodFirstCurrency_append (ps : List Payment) (p : Payment) (m : PaymentMethod) :
    methodFirstCurrency (ps ++ [p]) m =
      if m ∈ ps.map Payment.method then methodFirstCurrency ps m
      else if p.method == m then some p.currency else none := by
  unfold methodFirstCurrency
  rw [List.filter_append]
  by_cases hm : m ∈ ps.map Payment.method
  · rw [if_pos hm]
    cases hfp : ps.filter (fun q => q.method == m) with
    | nil =>
      exfalso
      obtain ⟨q, hq, hqm⟩ := List.mem_map.mp hm
      have hmem : q ∈ ps.filter (fun r => r.method == m) :=
        List.mem_filter.mpr ⟨hq, by simp [hqm]⟩
      rw [hfp] at hmem
      simp at hmem
    | cons q qs => simp
  · rw [if_neg hm, filter_method_eq_nil hm]
    by_cases hp : (p.method == m) = true
    · simp [hp]
    · have hp2 : (p.method == m) = false := by simpa using hp
      simp [hp2]

theorem methodFirstCurrency_isSome {ps : List Payment} {m : PaymentMethod}
    (h : m ∈ ps.map Payment.method) :
    ∃ c, methodFirstCurrency ps m = some c := by
  unfold methodFirstCurrency
  cases hfp : ps.filter (fun q => q.method == m) with
  | nil =>
    exfalso
    obtain ⟨q, hq, hqm⟩ := List.mem_map.mp h
    have hmem : q ∈ ps.filter (fun r => r.method == m) :=
      List.mem_filter.mpr ⟨hq, by simp [hqm]⟩
    rw [hfp] at hmem
    simp at hmem
  | cons q qs => exact ⟨q.currency, by simp⟩

theorem firstSeenMethods_append (ps : List Payment) (p : Payment) :
    firstSeenMethods (ps ++ [p]) =
      if p.method ∈ ps.map Payment.method then firstSeenMethods ps
      else firstSeenMethods ps ++ [p.method] := by
  induction ps with
  | nil => simp [firstSeenMethods]
  | cons q rest ih =>
    have hcons : firstSeenMethods (q :: (rest ++ [p])) =
        q.method :: (firstSeenMethods (rest ++ [p])).filter (fun x => !(x == q.method)) := rfl
    rw [List.cons_append, hcons, ih]
    by_cases hm : p.method ∈ List.map Payment.method rest
    · rw [if_pos hm,
        if_pos (show p.method ∈ List.map Payment.method (q :: rest) from by simp [hm])]
      rfl
    · by_cases hq : p.method = q.method
      · rw [if_neg hm,
          if_pos (show p.method ∈ List.map Payment.method (q :: rest) from by simp [hq]),
          List.filter_append]
        have hnil : List.filter (fun x => !(x == q.method)) [p.method] = [] := by simp [hq]
        rw [hnil, List.append_nil]
        rfl
      · rw [if_neg hm,
          if_neg (show ¬ p.method ∈ List.map Payment.method (q :: rest) from by simp [hq, hm]),
          List.filter_append]
        have hone : List.filter (fun x => !(x == q.method)) [p.method] = [p.method] := by
          simp [hq]
        rw [hone]
        rfl

theorem find?_map_key (g : PaymentMethod → Money) (l : List PaymentMethod) (x : PaymentMethod) :
    (l.map (fun m => (m, g m))).find? (fun e => e.1 == x) =
      (l.find? (fun m => m == x)).map (fun m => (m, g m)) := by
  induction l with
  | nil => simp
  | cons a rest ih =>
    by_cases h : (a == x) = true
    · simp [List.find?_cons, h]
    · have h2 : (a == x) = false := by simpa using h
      simp [List.find?_cons, h2, ih]

theorem addPayment_aggregationSpec (l : List Payment) (p : Payment) :
    addPayment (aggregationSpec l) p = aggregationSpec (l ++ [p]) := by
  by_cases hmem : p.method ∈ l.map Payment.method
  · have hfs : p.method ∈ firstSeenMethods l := mem_firstSeenMethods.mpr hmem
    cases hf2 : (firstSeenMethods l).find? (fun m => m == p.method) with
    | none =>
      exfalso
      have := List.find?_eq_none.mp hf2 p.method hfs
      simp at this
    | some m0 =>
      have hL : addPayment (aggregationSpec l) p =
          (aggregationSpec l).map (fun e =>
            if e.1 == p.method then (e.1, (⟨e.2.amount + p.amount, e.2.currency⟩ : Money))
            else e) := by
        unfold addPayment
        rw [aggregationSpec, find?_map_key, hf2]
        rfl
      rw [hL, aggregationSpec, aggregationSpec, List.map_map, firstSeenMethods_append,
        if_pos hmem]
      apply List.map_congr_left
      intro m hm
      have hmm : m ∈ l.map Payment.method := mem_firstSeenMethods.mp hm
      by_cases he : m = p.method
      · subst he
        simp [methodAmount_append, methodFirstCurrency_append, hmm]
      · have he2 : (m == p.method) = false := by simp [he]
        have he3 : (p.method == m) = false := by
          rw [beq_eq_false_iff_ne]
          intro hh
          exact he hh.symm
        simp [he2, he3, methodAmount_append, methodFirstCurrency_append, hmm]
        exact fun hh => absurd hh he
  · have hfs : ¬ p.method ∈ firstSeenMethods l := fun h => hmem (mem_firstSeenMethods.mp h)
    have hf2 : (firstSeenMethods l).find? (fun m => m == p.method) = none := by
      rw [List.find?_eq_none]
      intro a ha
      simp only [beq_iff_eq]
      intro hh
      exact hfs (hh ▸ ha)
    have hL : addPayment (aggregationSpec l) p =
        aggregationSpec l ++ [(p.method, (⟨p.amount, p.currency⟩ : Money))] := by
      unfold addPayment
      rw [aggregationSpec, find?_map_key, hf2]
      rfl
    rw [hL, aggregationSpec, aggregationSpec, firstSeenMethods_append, if_neg hmem,
      List.map_append]
    congr 1
    · apply List.map_congr_left
      intro m hm
      have hmm : m ∈ l.map Payment.method := mem_firstSeenMethods.mp hm
      have hne : (p.method == m) = false := by
        rw [beq_eq_false_iff_ne]
        intro hh
        exact hmem (hh ▸ hmm)
      simp [methodAmount_append, methodFirstCurrency_append, hmm, hne]
    · have hcond : ¬ ∃ a ∈ l, a.method = p.method := by
        rintro ⟨a, ha, ham⟩
        exact hmem (List.mem_map.mpr ⟨a, ha, ham⟩)
      simp [methodAmount_append, methodFirstCurrency_append, hmem, hcond,
        methodAmount_of_not_mem hmem]

theorem foldl_addPayment_eq_aggregationSpec (ps : List Payment) :
    ps.foldl addPayment [] = aggregationSpec ps := by
  induction ps using List.reverseRecOn with
  | nil => rfl
  | append_singleton l p ih =>
    rw [List.foldl_append, List.foldl_cons, List.foldl_nil, ih]
    exact addPayment_aggregationSpec l p

theorem calculateDailyIncomes_eq_spec (orders : List Order) (session : PosSession) :
    calculateDailyIncomes orders session = aggregationSpec (paidPayments orders session) := by
  unfold calculateDailyIncomes
  exact foldl_addPayment_eq_aggregationSpec (paidPayments orders session)

/-- C3.  For every fixed order set, the aggregation ranges over exactly
`paidPayments` — the payments of orders created at-or-after the session's
opening whose order status and payment status are both paid: its methods are
those payments' methods in first-seen order, each entry's amount is the
arithmetic sum of that method's included payments, and each entry's currency is
the first included payment's currency for the method. -/
theorem calculateDailyIncomes_correct (orders : List Order) (session : PosSession) :
    (calculateDailyIncomes orders session).map Prod.fst =
      firstSeenMethods (paidPayments orders session) ∧
    (∀ m money, (m, money) ∈ calculateDailyIncomes orders session →
      money.amount = methodAmount (paidPayments orders session) m ∧
      methodFirstCurrency (paidPayments orders session) m = some money.currency) ∧
    (∀ m, (∃ money, (m, money) ∈ calculateDailyIncomes orders session) ↔
      m ∈ (paidPayments orders session).map Payment.method) := by
  rw [calculateDailyIncomes_eq_spec]
  refine ⟨?_, ?_, ?_⟩
  · unfold aggregationSpec
    rw [List.map_map]
    have hid : (Prod.fst ∘ fun m => (m,
        (⟨methodAmount (paidPayments orders session) m,
          (methodFirstCurrency (paidPayments orders session) m).getD ""⟩ : Money))) =
        fun m : PaymentMethod => m := rfl
    rw [hid]
    simp
  · intro m money hmem2
    obtain ⟨m0, hm0, heq⟩ := List.mem_map.mp hmem2
    rw [Prod.mk.injEq] at heq
    obtain ⟨h1, h2⟩ := heq
    subst h1
    obtain ⟨c, hc⟩ := methodFirstCurrency_isSome (mem_firstSeenMethods.mp hm0)
    subst h2
    refine ⟨rfl, ?_⟩
    rw [hc]
    rfl
  · intro m
    constructor
    · rintro ⟨money, hmem2⟩
      obtain ⟨m0, hm0, heq⟩ := List.mem_map.mp hmem2
      rw [Prod.mk.injEq] at heq
      exact heq.1 ▸ mem_firstSeenMethods.mp hm0
    · intro hmm
      exact ⟨_, List.mem_map.mpr ⟨m, mem_firstSeenMethods.mpr hmm, rfl⟩⟩
